import Mathlib

/-!
Shallow embedding of the LLM-driven robot controller
(`webots-llm-robotcontroller`): the action/response pipeline
(`common/robot/llm/RobotAction.py`, `ActionAdapter.py`, `LLMAdapter.py`),
the chat gateway (`common/llm/chats.py`), and the control loop
(`common/robot/LLMRobotController.py`).

Numeric sensor readings and action parameters are Python floats in the
source; they are modelled as rationals, since every property at issue is
about order comparisons, never about rounding.
-/

namespace RobotCtl

/-! ## Data model (`common/robot/llm/RobotAction.py`) -/

/-- `Motivation` dataclass: free-text rationale attached to an action. -/
structure Motivation where
  subgoal : String := ""
  reasoning : String := ""
  scene_description : String := ""
deriving Repr, DecidableEq, Inhabited

/-- `RobotAction` dataclass: symbolic command plus numeric parameter. -/
structure RobotAction where
  command : String
  parameter : ℚ
  motivation : Motivation := {}
deriving Repr, DecidableEq, Inhabited

/-! ## Action executor (`common/robot/llm/ActionAdapter.py`) -/

/-- `ActionStatus` enum. -/
inductive ActionStatus where
  | SUCCESS
  | FAILURE
  | OBSTACLE_DETECTED
deriving Repr, DecidableEq, Inhabited

/-- `ActionResult` dataclass. -/
structure ActionResult where
  status : ActionStatus
  message : String := ""
deriving Repr, DecidableEq, Inhabited

/-- Calls `ActionAdapter.execute` issues against the underlying
`RobotController` (the four motion primitives and `stop`). -/
inductive RobotCall where
  | goFront (p : ℚ)
  | goBack (p : ℚ)
  | rotateLeft (p : ℚ)
  | rotateRight (p : ℚ)
  | stop
deriving Repr, DecidableEq

/-- The keys of `ActionAdapter.actionMap`. -/
def actionMapCommands : List String :=
  ["FRONT", "BACK", "ROTATE_LEFT", "ROTATE_RIGHT"]

/-- `self.actionMap` as a lookup from command string to the bound
robot-controller method. -/
def actionMapLookup (command : String) : Option (ℚ → RobotCall) :=
  if command = "FRONT" then some RobotCall.goFront
  else if command = "BACK" then some RobotCall.goBack
  else if command = "ROTATE_LEFT" then some RobotCall.rotateLeft
  else if command = "ROTATE_RIGHT" then some RobotCall.rotateRight
  else none

/-- What the worker thread running the actuation call observed.  The Python
code starts a `threading.Thread` on the bound method, joins it, and never
reads any outcome from it (a return value is dropped and an exception
inside a thread does not propagate through `join`). -/
inductive ActuationOutcome where
  | completed
  | deviceError (msg : String)
deriving Repr, DecidableEq, Inhabited

/-- `ActionAdapter.execute`.  Returns the `ActionResult` together with the
trace of calls issued to the robot controller: on a known command the
motion call runs to completion, then `self.robot.stop()`; on an unknown
command no robot call at all is made.  `outcome` is what the actuation
thread itself experienced; the source ignores it. -/
def ActionAdapter.execute (action : RobotAction) (outcome : ActuationOutcome) :
    ActionResult × List RobotCall :=
  match actionMapLookup action.command with
  | some call =>
      ({ status := ActionStatus.SUCCESS,
         message := "Executed " ++ action.command ++ " with parameter "
                      ++ toString action.parameter },
       [call action.parameter, RobotCall.stop])
  | none =>
      ({ status := ActionStatus.FAILURE, message := "Unknown command" }, [])

/-- Number of `stop` calls in a robot-call trace. -/
def stopCount (calls : List RobotCall) : ℕ :=
  calls.countP (fun c => c = RobotCall.stop)

/-- `np.min` on a list of readings: `None` on the empty list models the
`ValueError` NumPy raises there.  The fold keeps the smaller of the
running minimum and the next reading. -/
def npMin : List ℚ → Option ℚ
  | [] => none
  | x :: xs => some (xs.foldl (fun acc y => if y < acc then y else acc) x)

/-- `ActionAdapter.checkSafety`.  `none` models the exception escaping
when the command is `FRONT` and the lidar list is empty (`np.min([])`
raises); Python's `and` short-circuits, so a non-`FRONT` command returns
`True` without evaluating `np.min`. -/
def ActionAdapter.checkSafety (action : RobotAction) (lidar : List ℚ) :
    Option Bool :=
  if action.command = "FRONT" then
    match npMin lidar with
    | none => none
    | some m => if m < action.parameter then some false else some true
  else
    some true

/-! ## Response parser (`common/robot/llm/LLMAdapter.py`, `common/utils/misc.py`) -/

/-- JSON values, as produced by Python's `json.loads`. -/
inductive Json where
  | null
  | bool (b : Bool)
  | num (q : ℚ)
  | str (s : String)
  | arr (elems : List Json)
  | obj (fields : List (String × Json))
deriving Inhabited

/-- First binding of a key in a JSON object; `none` for absent keys and
for non-objects. -/
def Json.getField : Json → String → Option Json
  | Json.obj fields, key => fields.lookup key
  | _, _ => none

def Json.isStr : Json → Bool
  | Json.str _ => true
  | _ => false

def Json.isNum : Json → Bool
  | Json.num _ => true
  | _ => false

def Json.isObj : Json → Bool
  | Json.obj _ => true
  | _ => false

/-- Python exceptions crossing the parser pipeline. -/
inductive Exn where
  | jsonDecode (raw : String)
  | invalidJSON (raw : String)
  | schemaValidation
  | validation
  | keyError (key : String)
  | typeError (msg : String)
deriving Repr, DecidableEq, Inhabited

/-- The `Result` dataclass of `LLMAdapter.py`. -/
structure Result (T : Type) where
  ok : Bool
  value : Option T := none
  error : Option Exn := none
deriving Repr, DecidableEq, Inhabited

/-- `Result.success`. -/
def Result.success {T : Type} (v : T) : Result T :=
  { ok := true, value := some v }

/-- `Result.failure`. -/
def Result.failure {T : Type} (e : Exn) : Result T :=
  { ok := false, error := some e }

/-- `extractJSON` (`common/utils/misc.py`).  The regex search for a
fenced ` ```json ` block and `json.loads` are the two text-level
primitives; they are passed in as parameters (`fenceSearch` returns the
captured group when the fence pattern matches, `jsonLoads` returns the
parsed value or `none` when `json.loads` would raise).  When no fence is
present the whole text must itself parse, and the raised decode error is
the `Except.error` case. -/
def extractJSON (jsonLoads : String → Option Json)
    (fenceSearch : String → Option String) (text : String) :
    Except Exn String :=
  match fenceSearch text with
  | some group => Except.ok group
  | none =>
      match jsonLoads text with
      | some _ => Except.ok text
      | none => Except.error (Exn.jsonDecode text)

/-- One property entry of a JSON-schema `properties` map: when the key is
present, its value must satisfy the subschema; an absent key is
unconstrained here (`required` is checked separately). -/
def propertyOk (j : Json) (key : String) (sub : Json → Bool) : Bool :=
  match j.getField key with
  | none => true
  | some v => sub v

/-- One entry of a JSON-schema `required` list. -/
def requiredOk (j : Json) (key : String) : Bool :=
  (j.getField key).isSome

/-- The nested `action` subschema of `LLMAdapter.responseSchema`:
`type: object`, string `command` and numeric `parameters`, both
required. -/
def actionSchemaOk (j : Json) : Bool :=
  j.isObj
    && propertyOk j "command" Json.isStr
    && propertyOk j "parameters" Json.isNum
    && requiredOk j "command"
    && requiredOk j "parameters"

/-- `LLMAdapter.responseSchema` as the predicate `jsonschema.validate`
decides: `type: object`; string properties `goal`, `scene_description`,
`reasoning`; object property `action` matching the nested subschema; and
`required: [goal, scene_description, reasoning, action]`. -/
def responseSchemaOk (j : Json) : Bool :=
  j.isObj
    && propertyOk j "goal" Json.isStr
    && propertyOk j "scene_description" Json.isStr
    && propertyOk j "reasoning" Json.isStr
    && propertyOk j "action" actionSchemaOk
    && requiredOk j "goal"
    && requiredOk j "scene_description"
    && requiredOk j "reasoning"
    && requiredOk j "action"

/-- `jsonschema.validate(action_obj, self.responseSchema)`: raises a
`ValidationError` exactly when the schema predicate fails. -/
def validateResponse (j : Json) : Except Exn Unit :=
  if responseSchemaOk j then Except.ok () else Except.error Exn.validation

/-- Python `d[k]` on a parsed JSON value: `KeyError` when the key is
missing, `TypeError` when the value is not a dict. -/
def getItem (j : Json) (key : String) : Except Exn Json :=
  match j with
  | Json.obj fields =>
      match fields.lookup key with
      | some v => Except.ok v
      | none => Except.error (Exn.keyError key)
  | _ => Except.error (Exn.typeError "not subscriptable")

/-- Python `float(x)` on a JSON scalar (numbers pass through, booleans
are ints); other values raise `TypeError`.  After schema validation only
the number case is reachable. -/
def toFloat : Json → Except Exn ℚ
  | Json.num q => Except.ok q
  | Json.bool b => Except.ok (if b then 1 else 0)
  | _ => Except.error (Exn.typeError "float() argument")

/-- A string field read during `RobotAction` construction.  After schema
validation only the string case is reachable. -/
def asString : Json → Except Exn String
  | Json.str s => Except.ok s
  | _ => Except.error (Exn.typeError "expected str")

/-- The third `try` block of `LLMAdapter.iterate`: build the
`RobotAction` from the validated object. -/
def constructAction (action_obj : Json) : Except Exn RobotAction := do
  let actionField ← getItem action_obj "action"
  let cmdJ ← getItem actionField "command"
  let cmd ← asString cmdJ
  let paramsJ ← getItem actionField "parameters"
  let params ← toFloat paramsJ
  let reasoningJ ← getItem action_obj "reasoning"
  let reasoning ← asString reasoningJ
  let subgoalJ ← getItem action_obj "goal"
  let subgoal ← asString subgoalJ
  let sceneJ ← getItem action_obj "scene_description"
  let scene ← asString sceneJ
  pure { command := cmd, parameter := params,
         motivation := { subgoal := subgoal, reasoning := reasoning,
                         scene_description := scene } }

/-- Contents of the first `try` block of `LLMAdapter.iterate`:
`extracted = extractJSON(response); action_obj = json.loads(extracted)`,
either of which may raise. -/
def extractAndParse (jsonLoads : String → Option Json)
    (fenceSearch : String → Option String) (response : String) :
    Except Exn Json :=
  match extractJSON jsonLoads fenceSearch response with
  | Except.error e => Except.error e
  | Except.ok extracted =>
      match jsonLoads extracted with
      | some j => Except.ok j
      | none => Except.error (Exn.jsonDecode extracted)

/-- `LLMAdapter.iterate`, from the point where the raw model text is in
hand (the chat call itself sits before the first `try` and outside the
parser boundary).  Each stage runs inside its own `try`/`except
Exception` that converts any raised exception into a `Result.failure`;
the outer `Except` is the channel for exceptions escaping `iterate`
itself. -/
def LLMAdapter.iterate (jsonLoads : String → Option Json)
    (fenceSearch : String → Option String) (response : String) :
    Except Exn (Result RobotAction) :=
  match extractAndParse jsonLoads fenceSearch response with
  | Except.error _ => Except.ok (Result.failure (Exn.invalidJSON response))
  | Except.ok action_obj =>
      match validateResponse action_obj with
      | Except.error _ => Except.ok (Result.failure Exn.schemaValidation)
      | Except.ok _ =>
          match constructAction action_obj with
          | Except.error e => Except.ok (Result.failure e)
          | Except.ok ra => Except.ok (Result.success ra)

/-! ## Chat gateway (`common/llm/chats.py`) -/

/-- Roles of the LangChain message turns kept in `self.chat`. -/
inductive Role where
  | system
  | user
  | assistant
deriving Repr, DecidableEq, Inhabited

/-- One message turn of the chat history. -/
structure Message where
  role : Role
  content : String
deriving Repr, DecidableEq, Inhabited

/-- Outcome of one `self.llm.ainvoke(self.chat)` call, indexed by
attempt number within a single `send_message`. -/
inductive InvokeOutcome where
  | answer (a : Message)
  | rateLimit
  | otherError (msg : String)
deriving Repr, DecidableEq, Inhabited

/-- Errors `send_message` can raise to its caller. -/
inductive SendError where
  | rateLimit
  | other (msg : String)
deriving Repr, DecidableEq, Inhabited

/-- The `while tries < 3` retry loop of `LLMChat.send_message`: on
`RateLimitError` increment `tries`, sleep 60 seconds and re-raise once
`tries >= 3`; any other exception re-raises immediately; on success break
with the answer.  Returns the outcome, the number of `ainvoke` calls
issued, and the list of sleep durations.  `fuel` bounds the recursion;
called with `fuel = 3` it covers every reachable `tries` value, and the
`fuel = 0` case is unreachable. -/
def sendRetry (client : ℕ → InvokeOutcome) :
    (tries : ℕ) → (fuel : ℕ) → Except SendError Message × ℕ × List ℕ
  | _, 0 => (Except.error SendError.rateLimit, 0, [])
  | tries, fuel + 1 =>
      match client tries with
      | InvokeOutcome.answer a => (Except.ok a, 1, [])
      | InvokeOutcome.otherError m => (Except.error (SendError.other m), 1, [])
      | InvokeOutcome.rateLimit =>
          if tries + 1 ≥ 3 then
            (Except.error SendError.rateLimit, 1, [60])
          else
            let rest := sendRetry client (tries + 1) fuel
            (rest.1, rest.2.1 + 1, 60 :: rest.2.2)

/-- Result of one `send_message` call: what it returned or raised, the
chat history afterwards, how many client calls it issued, and the sleeps
it performed. -/
structure SendOutcome where
  result : Except SendError String
  chat : List Message
  calls : ℕ
  sleeps : List ℕ
deriving Repr

/-- `if len(self.chat) == 4: del self.chat[1:3]` — drop the 2nd and 3rd
entries exactly when the history length is 4. -/
def pruneAt4 (chat : List Message) : List Message :=
  if chat.length = 4 then chat.take 1 ++ chat.drop 3 else chat

/-- `LLMChat.send_message`: append the user message; then the length-4
prune; then the retry loop; on success append the answer and return its
content. -/
def send_message (client : ℕ → InvokeOutcome) (chat : List Message)
    (message : Message) : SendOutcome :=
  match sendRetry client 0 3 with
  | (Except.ok a, calls, sleeps) =>
      { result := Except.ok a.content,
        chat := pruneAt4 (chat ++ [message]) ++ [a],
        calls := calls, sleeps := sleeps }
  | (Except.error e, calls, sleeps) =>
      { result := Except.error e, chat := pruneAt4 (chat ++ [message]),
        calls := calls, sleeps := sleeps }

/-- History effect of one successful round (user message in, assistant
answer out) — `send_message` with a client that answers at once. -/
def sendRound (chat : List Message) (turn : Message × Message) :
    List Message :=
  (send_message (fun _ => InvokeOutcome.answer turn.2) chat turn.1).chat

/-- History after a session of successful rounds. -/
def runRounds (chat : List Message) (rounds : List (Message × Message)) :
    List Message :=
  rounds.foldl sendRound chat

/-! ## Control loop (`common/robot/LLMRobotController.py`, `simulation/events.py`) -/

/-- The `EventType` enum of `simulation/events.py`. -/
inductive EventType where
  | SIMULATION_STARTED
  | SIMULATION_ABORTED
  | END_OF_SIMULATION
  | SENDING_MESSAGE_TO_LLM
  | MESSAGE_RECEIVED_FROM_LLM
  | LLM_RESPONSE_TIMEOUT
  | LLM_RATE_LIMIT_EXCEEDED
  | LLM_INVALID_JSON_SCHEMA
  | LLM_INVALID_ROBOT_ACTION
  | LLM_EXECUTING_ROBOT_ACTION
  | LLM_ROBOT_ACTION_FAILED
  | LLM_ROBOT_ACTION_COMPLETED
  | LLM_ROBOT_ACTION_ABORTED
  | LLM_DANGEROUS_ACTION
  | LLM_MAX_ITERATIONS_REACHED
  | LLM_TOO_MANY_INVALID_JSON
  | LLM_TOO_MANY_DANGEROUS_ACTIONS
  | LLM_GOAL_COMPLETED
  | LLM_START
  | LLM_FINISH
  | SIMULATION_STEP
deriving Repr, DecidableEq, Inhabited

/-- `response.ok and response.value.command == "COMPLETE"`.  `iterate`
only ever pairs `ok = true` with a present value, so the `none` case is
unreachable there. -/
def Result.isCompleteResp (r : Result RobotAction) : Bool :=
  r.ok && (match r.value with
           | some a => a.command == "COMPLETE"
           | none => false)

/-- The `while` condition of `LLMRobotController.ask`:
`iterations < maxIterations and not(response.ok and
response.value.command == "COMPLETE")`. -/
def loopGuard (maxIterations iterations : ℕ) (r : Result RobotAction) : Bool :=
  decide (iterations < maxIterations) && !(Result.isCompleteResp r)

/-- Output of the `while` loop: events notified inside the loop, final
value of `iterations`, final `response`, and the exception (as its
`str(e)` text) when one escaped the loop body into `ask`'s outer
`except` handler. -/
structure LoopOut where
  events : List EventType
  iterations : ℕ
  response : Result RobotAction
  exn : Option String
deriving Repr

/-- The `while` loop of `LLMRobotController.ask`.  The session
environment enters through four functions: `iterAt k` is the outcome of
the `(k+1)`-th `llmAdapter.iterate` call of the session (`Except.error`
when `iterate` raises, e.g. a rate-limit error out of `send_message`
before its first `try`); `lidarAt i`, `timesOutAt i` and `actuationAt i`
are the lidar snapshot, the `asyncio.wait_for` timeout verdict and the
actuation-thread outcome at loop iteration `i` (the value of
`iterations` after its increment).  A raised exception inside the body
(`np.min` on an empty lidar under a `FRONT` action, an absent
`response.value`, a raising `iterate`, or the `TypeError` from the
three-argument `iterate` call in the invalid-response branch) stops the
loop with `exn` set.
`fuel` bounds the recursion and is unreachable at `0` when called with
`fuel > maxIterations - iterations`, since every recursive call
increments `iterations`. -/
def askLoopAux (iterAt : ℕ → Except String (Result RobotAction))
    (lidarAt : ℕ → List ℚ) (timesOutAt : ℕ → Bool)
    (actuationAt : ℕ → ActuationOutcome) (maxIterations : ℕ) :
    (fuel : ℕ) → (iterations : ℕ) → (callIdx : ℕ) →
    (response : Result RobotAction) → LoopOut
  | 0, iterations, _, response =>
      { events := [], iterations := iterations, response := response,
        exn := none }
  | fuel + 1, iterations, callIdx, response =>
      if loopGuard maxIterations iterations response then
        let i := iterations + 1
        if response.ok then
          match response.value with
          | none =>
              { events := [], iterations := i, response := response,
                exn := some "NoneType has no attribute command" }
          | some a =>
              match ActionAdapter.checkSafety a (lidarAt i) with
              | none =>
                  { events := [], iterations := i, response := response,
                    exn := some "zero-size array to reduction operation" }
              | some true =>
                  if timesOutAt i then
                    { events := [EventType.LLM_EXECUTING_ROBOT_ACTION,
                                 EventType.LLM_ROBOT_ACTION_ABORTED],
                      iterations := i, response := response, exn := none }
                  else
                    let actionResult := (ActionAdapter.execute a (actuationAt i)).1
                    if actionResult.status = ActionStatus.SUCCESS then
                      match iterAt callIdx with
                      | Except.error e =>
                          { events := [EventType.LLM_EXECUTING_ROBOT_ACTION,
                                       EventType.LLM_ROBOT_ACTION_COMPLETED,
                                       EventType.SENDING_MESSAGE_TO_LLM],
                            iterations := i, response := response,
                            exn := some e }
                      | Except.ok response2 =>
                          let rest := askLoopAux iterAt lidarAt timesOutAt
                            actuationAt maxIterations fuel i (callIdx + 1)
                            response2
                          { events := [EventType.LLM_EXECUTING_ROBOT_ACTION,
                                       EventType.LLM_ROBOT_ACTION_COMPLETED,
                                       EventType.SENDING_MESSAGE_TO_LLM,
                                       EventType.MESSAGE_RECEIVED_FROM_LLM]
                                      ++ rest.events,
                            iterations := rest.iterations,
                            response := rest.response, exn := rest.exn }
                    else
                      { events := [EventType.LLM_EXECUTING_ROBOT_ACTION,
                                   EventType.LLM_ROBOT_ACTION_FAILED],
                        iterations := i, response := response, exn := none }
              | some false =>
                  match iterAt callIdx with
                  | Except.error e =>
                      { events := [EventType.LLM_DANGEROUS_ACTION,
                                   EventType.SENDING_MESSAGE_TO_LLM],
                        iterations := i, response := response, exn := some e }
                  | Except.ok response2 =>
                      let rest := askLoopAux iterAt lidarAt timesOutAt
                        actuationAt maxIterations fuel i (callIdx + 1)
                        response2
                      { events := [EventType.LLM_DANGEROUS_ACTION,
                                   EventType.SENDING_MESSAGE_TO_LLM,
                                   EventType.MESSAGE_RECEIVED_FROM_LLM]
                                  ++ rest.events,
                        iterations := rest.iterations,
                        response := rest.response, exn := rest.exn }
        else
          -- The invalid-response re-prompt passes three arguments
          -- (`prompt, image, None`) to the two-parameter
          -- `LLMAdapter.iterate`, so the call raises `TypeError` before
          -- any model round-trip; the exception lands in `ask`'s outer
          -- `except` handler.
          { events := [EventType.LLM_INVALID_JSON_SCHEMA,
                       EventType.SENDING_MESSAGE_TO_LLM],
            iterations := i, response := response,
            exn := some
              "iterate() takes 3 positional arguments but 4 were given" }
      else
        { events := [], iterations := iterations, response := response,
          exn := none }

/-- Per-session environment of `ask`.  `abortSignalAt i` records whether
an external abort signal was observed before loop iteration `i`: the
source of `LLMRobotController.ask` reads no such flag anywhere (its
`while` condition mentions only `iterations` and `response`), so the
field exists only to state claims about abort behaviour. -/
structure LoopEnv where
  iterateAt : ℕ → Except String (Result RobotAction)
  lidarAt : ℕ → List ℚ
  timesOutAt : ℕ → Bool
  actuationAt : ℕ → ActuationOutcome
  abortSignalAt : ℕ → Bool

/-- Events and final iteration count of the `try`/`except` body of an
acquired `ask` session (everything after `SIMULATION_STARTED` and before
the `finally` block). -/
structure BodyOut where
  events : List EventType
  iterations : ℕ
deriving Repr, DecidableEq

/-- The `try`/`except` body of `ask` after lock acquisition: initial
prompt and `iterate` call, the `while` loop, the post-loop
notifications, and the `except Exception` handler that converts any
escaped exception into `SIMULATION_ABORTED`. -/
def askBody (env : LoopEnv) (maxIterations : ℕ) : BodyOut :=
  match env.iterateAt 0 with
  | Except.error _ =>
      { events := [EventType.SENDING_MESSAGE_TO_LLM,
                   EventType.SIMULATION_ABORTED],
        iterations := 0 }
  | Except.ok response0 =>
      let lo := askLoopAux env.iterateAt env.lidarAt env.timesOutAt
        env.actuationAt maxIterations (maxIterations + 1) 0 1 response0
      let post : List EventType :=
        match lo.exn with
        | some _ => [EventType.SIMULATION_ABORTED]
        | none =>
            (if maxIterations ≤ lo.iterations then
               [EventType.LLM_MAX_ITERATIONS_REACHED]
             else if Result.isCompleteResp lo.response then
               [EventType.LLM_GOAL_COMPLETED]
             else [])
            ++ (if !lo.response.ok then [EventType.SIMULATION_ABORTED]
                else if maxIterations ≤ lo.iterations then
                  [EventType.SIMULATION_ABORTED]
                else if !(Result.isCompleteResp lo.response) then
                  [EventType.SIMULATION_ABORTED]
                else [])
      { events := [EventType.SENDING_MESSAGE_TO_LLM,
                   EventType.MESSAGE_RECEIVED_FROM_LLM]
                  ++ lo.events ++ post,
        iterations := lo.iterations }

/-- Result of one `ask` invocation: whether it took the busy path, the
events it notified, and the state of the session lock afterwards. -/
structure AskResult where
  busy : Bool
  events : List EventType
  finalLocked : Bool
deriving Repr, DecidableEq

/-- `LLMRobotController.ask`.  `locked` is whether another session holds
`sessionLock` at entry.  `acquire(blocking=False)` failing returns at
once after a log line — no events, no state change.  On acquisition the
session runs with the lock held; the `finally` block releases the lock
and notifies `END_OF_SIMULATION` on every exit path of the `try` body. -/
def ask (locked : Bool) (env : LoopEnv) (maxIterations : ℕ) : AskResult :=
  if locked then
    { busy := true, events := [], finalLocked := true }
  else
    { busy := false,
      events := EventType.SIMULATION_STARTED
                  :: (askBody env maxIterations).events
                  ++ [EventType.END_OF_SIMULATION],
      finalLocked := false }

/-- Construction-stage exceptions of `LLMAdapter.iterate`: a `KeyError`
from dict indexing or a `TypeError` from coercion. -/
def Exn.isConstructionKind : Exn → Bool
  | Exn.keyError _ => true
  | Exn.typeError _ => true
  | _ => false

/-- A valid model response that keeps the session looping: a parsed
action whose command is not `COMPLETE` and sits in the dispatch table,
so it is re-prompted through the dangerous-action branch when unsafe and
executed with `SUCCESS` when safe.  (An invalid response instead aborts
the session: its re-prompt raises `TypeError`.) -/
def nonCompletingResp (r : Result RobotAction) : Prop :=
  r.ok = true ∧
    ∃ a, r.value = some a ∧ a.command ≠ "COMPLETE" ∧
      a.command ∈ actionMapCommands

/-! ## Concrete instances for witnesses and counterexamples -/

/-- A syntactically valid response object lacking the `reasoning`
field. -/
def jNoReasoning : Json :=
  Json.obj [("goal", Json.str "reach the crate"),
            ("scene_description", Json.str "open floor"),
            ("action", Json.obj [("command", Json.str "FRONT"),
                                 ("parameters", Json.num 1)])]

/-- The same response object with `reasoning` present. -/
def jWithReasoning : Json :=
  Json.obj [("goal", Json.str "reach the crate"),
            ("scene_description", Json.str "open floor"),
            ("reasoning", Json.str "path is clear"),
            ("action", Json.obj [("command", Json.str "FRONT"),
                                 ("parameters", Json.num 1)])]

def userMsg : Message := { role := Role.user, content := "hello" }

def answerMsg : Message := { role := Role.assistant, content := "fine" }

def sysMsg : Message := { role := Role.system, content := "be brief" }

/-- A chat client that rate-limits the first two attempts and answers on
the third. -/
def clientTwoRateLimits : ℕ → InvokeOutcome := fun i =>
  if i < 2 then InvokeOutcome.rateLimit else InvokeOutcome.answer answerMsg

/-- A chat client that rate-limits every attempt. -/
def clientAlwaysRateLimited : ℕ → InvokeOutcome := fun _ =>
  InvokeOutcome.rateLimit

/-- A chat client whose first call fails with a non-rate-limit error. -/
def clientBroken : ℕ → InvokeOutcome := fun _ =>
  InvokeOutcome.otherError "connection reset"

/-- A session whose model always answers with a well-formed action whose
command is outside the dispatch table. -/
def envUnknownCommand : LoopEnv :=
  { iterateAt := fun _ =>
      Except.ok (Result.success { command := "JUMP", parameter := 1 }),
    lidarAt := fun _ => [10],
    timesOutAt := fun _ => false,
    actuationAt := fun _ => ActuationOutcome.completed,
    abortSignalAt := fun _ => false }

/-- A session whose model only ever produces invalid JSON. -/
def envAllInvalid : LoopEnv :=
  { iterateAt := fun _ =>
      Except.ok (Result.failure (Exn.invalidJSON "gibberish")),
    lidarAt := fun _ => [10],
    timesOutAt := fun _ => false,
    actuationAt := fun _ => ActuationOutcome.completed,
    abortSignalAt := fun _ => false }

/-- A session whose model always proposes `FRONT 5` against an obstacle
one unit away: every response is valid but unsafe, so each iteration
takes the dangerous-action re-prompt branch. -/
def envUnsafeFront : LoopEnv :=
  { iterateAt := fun _ =>
      Except.ok (Result.success { command := "FRONT", parameter := 5 }),
    lidarAt := fun _ => [1],
    timesOutAt := fun _ => false,
    actuationAt := fun _ => ActuationOutcome.completed,
    abortSignalAt := fun _ => false }

/-- A session with an external abort signal raised from the very first
iteration, over a model that always proposes a safe `ROTATE_LEFT`
action — a session that, left alone, runs to its iteration cap. -/
def envAbortSignalled : LoopEnv :=
  { iterateAt := fun _ =>
      Except.ok (Result.success { command := "ROTATE_LEFT",
                                  parameter := 90 }),
    lidarAt := fun _ => [10],
    timesOutAt := fun _ => false,
    actuationAt := fun _ => ActuationOutcome.completed,
    abortSignalAt := fun _ => true }

/-! ## Helper lemmas -/

lemma actionMapLookup_isSome_iff (c : String) :
    (actionMapLookup c).isSome = true ↔ c ∈ actionMapCommands := by
  unfold actionMapLookup actionMapCommands
  by_cases h1 : c = "FRONT" <;> by_cases h2 : c = "BACK" <;>
    by_cases h3 : c = "ROTATE_LEFT" <;> by_cases h4 : c = "ROTATE_RIGHT" <;>
    simp [h1, h2, h3, h4]

lemma execute_of_lookup_some {a : RobotAction} {o : ActuationOutcome}
    {call : ℚ → RobotCall} (h : actionMapLookup a.command = some call) :
    ActionAdapter.execute a o =
      ({ status := ActionStatus.SUCCESS,
         message := "Executed " ++ a.command ++ " with parameter "
                      ++ toString a.parameter },
       [call a.parameter, RobotCall.stop]) := by
  unfold ActionAdapter.execute
  rw [h]

lemma execute_of_lookup_none {a : RobotAction} {o : ActuationOutcome}
    (h : actionMapLookup a.command = none) :
    ActionAdapter.execute a o =
      ({ status := ActionStatus.FAILURE, message := "Unknown command" },
       []) := by
  unfold ActionAdapter.execute
  rw [h]

lemma actionMapLookup_call_ne_stop {c : String} {call : ℚ → RobotCall}
    (h : actionMapLookup c = some call) (p : ℚ) :
    call p ≠ RobotCall.stop := by
  unfold actionMapLookup at h
  by_cases h1 : c = "FRONT" <;> by_cases h2 : c = "BACK" <;>
    by_cases h3 : c = "ROTATE_LEFT" <;> by_cases h4 : c = "ROTATE_RIGHT" <;>
    simp [h1, h2, h3, h4] at h <;> simp [← h]

/-! ## C2: the safety gate -/

/-- C2: `checkSafety(a, L)` returns `false` exactly when the command is
`FRONT` and the minimum lidar reading is strictly below the commanded
distance; every other command is safe regardless of the snapshot; and
the three concrete spec examples evaluate as stated. -/
theorem c2_checkSafety_gate (a : RobotAction) (L : List ℚ) (m : ℚ)
    (hm : npMin L = some m) :
    (ActionAdapter.checkSafety a L = some false ↔
       a.command = "FRONT" ∧ m < a.parameter)
  ∧ (∀ L' : List ℚ, a.command ≠ "FRONT" →
       ActionAdapter.checkSafety a L' = some true)
  ∧ ActionAdapter.checkSafety { command := "FRONT", parameter := 2 }
      [3/2, 3/2, 3/2] = some false
  ∧ ActionAdapter.checkSafety { command := "FRONT", parameter := 1 }
      [3/2, 3/2, 3/2] = some true
  ∧ ActionAdapter.checkSafety { command := "ROTATE_LEFT", parameter := 90 }
      [1/10] = some true := by
  refine ⟨?_, ?_,
    by norm_num [ActionAdapter.checkSafety, npMin, List.foldl],
    by norm_num [ActionAdapter.checkSafety, npMin, List.foldl],
    by unfold ActionAdapter.checkSafety; rw [if_neg (by decide)]⟩
  · unfold ActionAdapter.checkSafety
    by_cases hf : a.command = "FRONT"
    · rw [if_pos hf, hm]
      by_cases hlt : m < a.parameter <;> simp [hlt, hf]
    · rw [if_neg hf]
      simp [hf]
  · intro L' hf
    unfold ActionAdapter.checkSafety
    rw [if_neg hf]

/-- C2 witness: the theorem applied at the first spec example. -/
theorem c2_checkSafety_gate_witness :
    ActionAdapter.checkSafety { command := "FRONT", parameter := 2 }
      [3/2, 3/2, 3/2] = some false := by
  have h := c2_checkSafety_gate { command := "FRONT", parameter := 2 }
    [3/2, 3/2, 3/2] (3/2) (by norm_num [npMin, List.foldl])
  exact h.2.2.1

/-! ## C3: the guaranteed-stop property -/

/-- C3 counterexample: executing an action whose command is outside the
dispatch table (the spec's own `COMPLETE` reaches this path only through
a caller bug, but any unknown string does too) reports `FAILURE` and
issues no `stop()` call at all — refuting "the stop operation has been
invoked exactly once" for the failure case. -/
theorem c3_counterexample :
    (ActionAdapter.execute { command := "COMPLETE", parameter := 0 }
        ActuationOutcome.completed).1.status = ActionStatus.FAILURE
  ∧ stopCount (ActionAdapter.execute { command := "COMPLETE", parameter := 0 }
        ActuationOutcome.completed).2 = 0 := by
  constructor <;> rfl

/-- C3 amended: `ActionAdapter.execute` invokes `stop()` exactly once
precisely when the command is in the dispatch table (the `SUCCESS`
case); on the unknown-command `FAILURE` path no robot call — in
particular no `stop()` — is issued. -/
theorem c3_stop_iff_dispatch (a : RobotAction) (o : ActuationOutcome) :
    stopCount (ActionAdapter.execute a o).2 =
      (if a.command ∈ actionMapCommands then 1 else 0)
  ∧ ((ActionAdapter.execute a o).1.status = ActionStatus.SUCCESS →
       stopCount (ActionAdapter.execute a o).2 = 1)
  ∧ ((ActionAdapter.execute a o).1.status = ActionStatus.FAILURE →
       (ActionAdapter.execute a o).2 = []) := by
  rcases hl : actionMapLookup a.command with _ | call
  · have hmem : a.command ∉ actionMapCommands := by
      rw [← actionMapLookup_isSome_iff, hl]
      simp
    rw [execute_of_lookup_none (o := o) hl]
    refine ⟨?_, ?_, ?_⟩
    · simp [hmem, stopCount]
    · intro h
      simp at h
    · intro _
      rfl
  · have hmem : a.command ∈ actionMapCommands := by
      rw [← actionMapLookup_isSome_iff, hl]
      rfl
    rw [execute_of_lookup_some (o := o) hl]
    refine ⟨?_, ?_, ?_⟩
    · simp [hmem, stopCount, List.countP_cons,
        actionMapLookup_call_ne_stop hl a.parameter]
    · intro _
      simp [stopCount, List.countP_cons,
        actionMapLookup_call_ne_stop hl a.parameter]
    · intro h
      simp at h

/-- C3 amended witness: a `FRONT` execution stops exactly once. -/
theorem c3_stop_iff_dispatch_witness :
    stopCount (ActionAdapter.execute { command := "FRONT", parameter := 1 }
        ActuationOutcome.completed).2 = 1 := by
  have h := c3_stop_iff_dispatch { command := "FRONT", parameter := 1 }
    ActuationOutcome.completed
  exact h.2.1 (by decide)

/-! ## C10: execute's result never reflects the actuation outcome -/

/-- C10: for the four dispatch-table commands `execute` reports
`SUCCESS` unconditionally; the whole result is independent of what the
actuation thread did; `OBSTACLE_DETECTED` is never produced; and
`FAILURE` arises exactly for commands outside the table. -/
theorem c10_execute_status (a : RobotAction) (o o' : ActuationOutcome) :
    (a.command ∈ actionMapCommands →
       (ActionAdapter.execute a o).1.status = ActionStatus.SUCCESS)
  ∧ ActionAdapter.execute a o = ActionAdapter.execute a o'
  ∧ (ActionAdapter.execute a o).1.status ≠ ActionStatus.OBSTACLE_DETECTED
  ∧ ((ActionAdapter.execute a o).1.status = ActionStatus.FAILURE ↔
       a.command ∉ actionMapCommands) := by
  rcases hl : actionMapLookup a.command with _ | call
  · have hmem : a.command ∉ actionMapCommands := by
      rw [← actionMapLookup_isSome_iff, hl]
      simp
    rw [execute_of_lookup_none (o := o) hl,
      execute_of_lookup_none (o := o') hl]
    exact ⟨fun h => absurd h hmem, rfl, by simp, by simp [hmem]⟩
  · have hmem : a.command ∈ actionMapCommands := by
      rw [← actionMapLookup_isSome_iff, hl]
      rfl
    rw [execute_of_lookup_some (o := o) hl,
      execute_of_lookup_some (o := o') hl]
    exact ⟨fun _ => rfl, rfl, by simp, by simp [hmem]⟩

/-- C10 witness: a `BACK` action succeeds regardless of a device error
in the actuation thread. -/
theorem c10_execute_status_witness :
    (ActionAdapter.execute { command := "BACK", parameter := 2 }
        (ActuationOutcome.deviceError "stall")).1.status =
      ActionStatus.SUCCESS := by
  have h := c10_execute_status { command := "BACK", parameter := 2 }
    (ActuationOutcome.deviceError "stall") ActuationOutcome.completed
  exact h.1 (by decide)

/-! ## Parser helper lemmas -/

lemma exceptBind_error {α β : Type} {x : Except Exn α}
    {f : α → Except Exn β} {e : Exn} (h : x >>= f = Except.error e) :
    x = Except.error e ∨ ∃ v, x = Except.ok v ∧ f v = Except.error e := by
  cases x with
  | error e2 =>
      left
      simp only [Bind.bind, Except.bind] at h
      injection h with h2
      subst h2
      rfl
  | ok v =>
      right
      simp only [Bind.bind, Except.bind] at h
      exact ⟨v, rfl, h⟩

lemma getItem_error_kind {j : Json} {k : String} {e : Exn}
    (h : getItem j k = Except.error e) : e.isConstructionKind = true := by
  cases j <;> simp only [getItem] at h
  case obj fields =>
    rcases hl : fields.lookup k with _ | v <;> rw [hl] at h
    · injection h with h2
      subst h2
      rfl
    · exact absurd h (by simp)
  all_goals (injection h with h2; subst h2; rfl)

lemma asString_error_kind {j : Json} {e : Exn}
    (h : asString j = Except.error e) : e.isConstructionKind = true := by
  cases j <;> simp only [asString] at h <;>
    first
    | (injection h with h2; subst h2; rfl)
    | exact absurd h (by simp)

lemma toFloat_error_kind {j : Json} {e : Exn}
    (h : toFloat j = Except.error e) : e.isConstructionKind = true := by
  cases j <;> simp only [toFloat] at h <;>
    first
    | (injection h with h2; subst h2; rfl)
    | exact absurd h (by simp)

lemma constructAction_error_kind {j : Json} {e : Exn}
    (h : constructAction j = Except.error e) : e.isConstructionKind = true := by
  unfold constructAction at h
  rcases exceptBind_error h with h1 | ⟨af, _, h⟩
  · exact getItem_error_kind h1
  rcases exceptBind_error h with h1 | ⟨cj, _, h⟩
  · exact getItem_error_kind h1
  rcases exceptBind_error h with h1 | ⟨c, _, h⟩
  · exact asString_error_kind h1
  rcases exceptBind_error h with h1 | ⟨pj, _, h⟩
  · exact getItem_error_kind h1
  rcases exceptBind_error h with h1 | ⟨p, _, h⟩
  · exact toFloat_error_kind h1
  rcases exceptBind_error h with h1 | ⟨rj, _, h⟩
  · exact getItem_error_kind h1
  rcases exceptBind_error h with h1 | ⟨r, _, h⟩
  · exact asString_error_kind h1
  rcases exceptBind_error h with h1 | ⟨gj, _, h⟩
  · exact getItem_error_kind h1
  rcases exceptBind_error h with h1 | ⟨g, _, h⟩
  · exact asString_error_kind h1
  rcases exceptBind_error h with h1 | ⟨sj, _, h⟩
  · exact getItem_error_kind h1
  rcases exceptBind_error h with h1 | ⟨s, _, h⟩
  · exact asString_error_kind h1
  exact absurd h (by simp [pure, Except.pure])

/-! ## C4: parser totality -/

/-- C4: for every raw model text (and any behaviour of the regex search
and `json.loads`), the extract/validate/construct pipeline returns a
typed `Result` — success carrying a `RobotAction`, or a failure carrying
`InvalidJSON`, `SchemaValidationError`, or a construction-stage error —
and never lets an exception escape (`iterate`'s exception channel is
never `Except.error`). -/
theorem c4_parser_total (jsonLoads : String → Option Json)
    (fenceSearch : String → Option String) (text : String) :
    ∃ r : Result RobotAction,
      LLMAdapter.iterate jsonLoads fenceSearch text = Except.ok r ∧
      (r.ok = true → (∃ a, r.value = some a) ∧ r.error = none) ∧
      (r.ok = false → r.value = none ∧ ∃ e, r.error = some e ∧
         (e = Exn.invalidJSON text ∨ e = Exn.schemaValidation ∨
           e.isConstructionKind = true)) := by
  rcases hep : extractAndParse jsonLoads fenceSearch text with e | action_obj
  · refine ⟨Result.failure (Exn.invalidJSON text), ?_, ?_, ?_⟩
    · simp only [LLMAdapter.iterate, hep]
    · intro hok
      simp [Result.failure] at hok
    · intro _
      exact ⟨rfl, Exn.invalidJSON text, rfl, Or.inl rfl⟩
  · by_cases hv : responseSchemaOk action_obj = true
    · have hvr : validateResponse action_obj = Except.ok () := by
        unfold validateResponse
        rw [if_pos hv]
      rcases hc : constructAction action_obj with ce | ra
      · refine ⟨Result.failure ce, ?_, ?_, ?_⟩
        · simp only [LLMAdapter.iterate, hep, hvr, hc]
        · intro hok
          simp [Result.failure] at hok
        · intro _
          exact ⟨rfl, ce, rfl,
            Or.inr (Or.inr (constructAction_error_kind hc))⟩
      · refine ⟨Result.success ra, ?_, ?_, ?_⟩
        · simp only [LLMAdapter.iterate, hep, hvr, hc]
        · intro _
          exact ⟨⟨ra, rfl⟩, rfl⟩
        · intro hok
          simp [Result.success] at hok
    · have hvr : validateResponse action_obj =
          Except.error Exn.validation := by
        unfold validateResponse
        rw [if_neg hv]
      refine ⟨Result.failure Exn.schemaValidation, ?_, ?_, ?_⟩
      · simp only [LLMAdapter.iterate, hep, hvr]
      · intro hok
        simp [Result.failure] at hok
      · intro _
        exact ⟨rfl, Exn.schemaValidation, rfl, Or.inr (Or.inl rfl)⟩

/-- C4 witness: the theorem applied to a bare non-JSON text. -/
theorem c4_parser_total_witness :
    ∃ r : Result RobotAction,
      LLMAdapter.iterate (fun _ => none) (fun _ => none) "plain text" =
        Except.ok r := by
  obtain ⟨r, hr, -, -⟩ :=
    c4_parser_total (fun _ => none) (fun _ => none) "plain text"
  exact ⟨r, hr⟩

/-! ## C9: the reasoning field in the schema -/

/-- C9 counterexample: a response object with well-typed `goal`,
`scene_description` and `action` (string `command`, numeric
`parameters`) but no `reasoning` field is rejected by the schema — the
pipeline yields `Failure(SchemaValidationError)`, not `Success`,
because the code lists `reasoning` under `required`. -/
theorem c9_counterexample :
    responseSchemaOk jNoReasoning = false
  ∧ LLMAdapter.iterate (fun _ => some jNoReasoning) (fun _ => none)
      "raw model text" = Except.ok (Result.failure Exn.schemaValidation) := by
  constructor <;> rfl

/-- C9 amended: the schema makes `reasoning` required.  An object with
all four required fields well-typed parses to `Success` with the
expected `RobotAction`; the same object lacking `reasoning` is rejected
with `Failure(SchemaValidationError)`. -/
theorem c9_reasoning_required (fields afields : List (String × Json))
    (g s c : String) (q : ℚ) (text : String)
    (hg : fields.lookup "goal" = some (Json.str g))
    (hs : fields.lookup "scene_description" = some (Json.str s))
    (ha : fields.lookup "action" = some (Json.obj afields))
    (hc : afields.lookup "command" = some (Json.str c))
    (hq : afields.lookup "parameters" = some (Json.num q)) :
    (∀ r : String, fields.lookup "reasoning" = some (Json.str r) →
        responseSchemaOk (Json.obj fields) = true ∧
        LLMAdapter.iterate (fun _ => some (Json.obj fields)) (fun _ => none)
            text =
          Except.ok (Result.success
            { command := c, parameter := q,
              motivation := { subgoal := g, reasoning := r,
                              scene_description := s } }))
  ∧ (fields.lookup "reasoning" = none →
        responseSchemaOk (Json.obj fields) = false ∧
        LLMAdapter.iterate (fun _ => some (Json.obj fields)) (fun _ => none)
            text =
          Except.ok (Result.failure Exn.schemaValidation)) := by
  constructor
  · intro r hr
    have hschema : responseSchemaOk (Json.obj fields) = true := by
      simp [responseSchemaOk, actionSchemaOk, propertyOk, requiredOk,
        Json.getField, Json.isObj, Json.isStr, Json.isNum, hg, hs, ha, hc,
        hq, hr]
    refine ⟨hschema, ?_⟩
    have hcon : constructAction (Json.obj fields) =
        Except.ok ({ command := c, parameter := q,
                     motivation := { subgoal := g, reasoning := r,
                                     scene_description := s } } :
                   RobotAction) := by
      simp [constructAction, getItem, asString, toFloat, hg, hs, ha, hc,
        hq, hr, Bind.bind, Except.bind, pure, Except.pure]
    have hval : validateResponse (Json.obj fields) = Except.ok () := by
      unfold validateResponse
      rw [if_pos hschema]
    have hext : extractAndParse (fun _ => some (Json.obj fields))
        (fun _ => none) text = Except.ok (Json.obj fields) := rfl
    simp only [LLMAdapter.iterate, hext, hval, hcon]
  · intro hr
    have hschema : responseSchemaOk (Json.obj fields) = false := by
      simp [responseSchemaOk, requiredOk, Json.getField, hr]
    refine ⟨hschema, ?_⟩
    have hval : validateResponse (Json.obj fields) =
        Except.error Exn.validation := by
      unfold validateResponse
      rw [hschema]
      rfl
    have hext : extractAndParse (fun _ => some (Json.obj fields))
        (fun _ => none) text = Except.ok (Json.obj fields) := rfl
    simp only [LLMAdapter.iterate, hext, hval]

/-- C9 amended witness: the theorem applied to the concrete object with
`reasoning` present. -/
theorem c9_reasoning_required_witness :
    LLMAdapter.iterate (fun _ => some jWithReasoning) (fun _ => none)
        "witness text" =
      Except.ok (Result.success
        { command := "FRONT", parameter := 1,
          motivation := { subgoal := "reach the crate",
                          reasoning := "path is clear",
                          scene_description := "open floor" } }) := by
  have h := c9_reasoning_required
    [("goal", Json.str "reach the crate"),
     ("scene_description", Json.str "open floor"),
     ("reasoning", Json.str "path is clear"),
     ("action", Json.obj [("command", Json.str "FRONT"),
                          ("parameters", Json.num 1)])]
    [("command", Json.str "FRONT"), ("parameters", Json.num 1)]
    "reach the crate" "open floor" "FRONT" 1 "witness text"
    rfl rfl rfl rfl rfl
  exact (h.1 "path is clear" rfl).2

/-! ## C7: retry/backoff in send_message -/

/-- C7: a client that rate-limits the first two attempts and answers on
the third yields the answer to the caller after exactly 3 calls with a
60-second sleep between attempts; a client that always rate-limits makes
the call raise the rate-limit error after exactly 3 attempts; any other
client error propagates immediately after a single call, with no sleep
and no retry. -/
theorem c7_send_message_retry (client : ℕ → InvokeOutcome)
    (chat : List Message) (message a : Message) (m : String) :
    (client 0 = InvokeOutcome.rateLimit →
     client 1 = InvokeOutcome.rateLimit →
     client 2 = InvokeOutcome.answer a →
       (send_message client chat message).result = Except.ok a.content ∧
       (send_message client chat message).calls = 3 ∧
       (send_message client chat message).sleeps = [60, 60])
  ∧ ((∀ i, client i = InvokeOutcome.rateLimit) →
       (send_message client chat message).result =
         Except.error SendError.rateLimit ∧
       (send_message client chat message).calls = 3 ∧
       (send_message client chat message).sleeps = [60, 60, 60])
  ∧ (client 0 = InvokeOutcome.otherError m →
       (send_message client chat message).result =
         Except.error (SendError.other m) ∧
       (send_message client chat message).calls = 1 ∧
       (send_message client chat message).sleeps = []) := by
  refine ⟨?_, ?_, ?_⟩
  · intro h0 h1 h2
    have hr : sendRetry client 0 3 = (Except.ok a, 3, [60, 60]) := by
      simp [sendRetry, h0, h1, h2]
    simp [send_message, hr]
  · intro hall
    have hr : sendRetry client 0 3 =
        (Except.error SendError.rateLimit, 3, [60, 60, 60]) := by
      simp [sendRetry, hall 0, hall 1, hall 2]
    simp [send_message, hr]
  · intro h0
    have hr : sendRetry client 0 3 =
        (Except.error (SendError.other m), 1, []) := by
      simp [sendRetry, h0]
    simp [send_message, hr]

/-- C7 witness: the theorem applied to the three concrete client
stubs. -/
theorem c7_send_message_retry_witness :
    (send_message clientTwoRateLimits [] userMsg).result =
      Except.ok "fine"
  ∧ (send_message clientAlwaysRateLimited [] userMsg).result =
      Except.error SendError.rateLimit
  ∧ (send_message clientBroken [] userMsg).calls = 1 := by
  refine ⟨?_, ?_, ?_⟩
  · exact ((c7_send_message_retry clientTwoRateLimits [] userMsg answerMsg
      "m").1 rfl rfl rfl).1
  · exact ((c7_send_message_retry clientAlwaysRateLimited [] userMsg
      answerMsg "m").2.1 (fun _ => rfl)).1
  · exact ((c7_send_message_retry clientBroken [] userMsg answerMsg
      "connection reset").2.2 rfl).2.1

/-! ## C8: the chat-history bound -/

/-- C8 counterexample: with no system instruction the history starts
empty, `len(self.chat) == 4` is only ever tested right after the user
append — when the length is odd — so pruning never fires: after two
rounds the history has already reached length 4, and a third round
pushes it to 6, refuting "the history length stays bounded [at the
threshold] for the rest of the session". -/
theorem c8_counterexample :
    (runRounds [] [(userMsg, answerMsg), (userMsg, answerMsg)]).length = 4
  ∧ (runRounds [] [(userMsg, answerMsg), (userMsg, answerMsg),
      (userMsg, answerMsg)]).length = 6 := by
  constructor <;> rfl

/-- After one successful round from a three-entry history
`[s, u, a]`, the history is `[s, newUser, newAnswer]`: the user append
makes the length 4, the prune drops entries 1 and 2, the answer append
closes the round. -/
lemma sendRound_three (s u a : Message) (p : Message × Message) :
    sendRound [s, u, a] p = [s, p.1, p.2] := rfl

/-- After one successful round from a singleton history `[s]` the
history is `[s, newUser, newAnswer]` (no prune: length 2 at the
check). -/
lemma sendRound_one (s : Message) (p : Message × Message) :
    sendRound [s] p = [s, p.1, p.2] := rfl

/-- A round from an untouched prune point appends the user and answer
turns. -/
lemma pruneAt4_of_ne {chat : List Message} (h : chat.length ≠ 4) :
    pruneAt4 chat = chat := if_neg h

/-- Shape of the history over any run that starts from `[s, u, a]`:
it stays `[s, last user, last answer]`. -/
lemma runRounds_three_shape (rounds : List (Message × Message)) :
    ∀ s u a : Message,
      runRounds [s, u, a] rounds = [s, u, a] ∧ rounds = [] ∨
      ∃ p ∈ rounds, runRounds [s, u, a] rounds = [s, p.1, p.2] := by
  induction rounds with
  | nil => exact fun s u a => Or.inl ⟨rfl, rfl⟩
  | cons q qs ih =>
      intro s u a
      have hstep : runRounds [s, u, a] (q :: qs) =
          runRounds [s, q.1, q.2] qs := by
        simp [runRounds, sendRound_three]
      rcases ih s q.1 q.2 with ⟨heq, hnil⟩ | ⟨p, hp, heq⟩
      · exact Or.inr ⟨q, List.mem_cons_self q qs, by rw [hstep, heq]⟩
      · exact Or.inr ⟨p, List.mem_cons_of_mem q hp, by rw [hstep, heq]⟩

/-- With an even-length history the prune check (made at odd length,
right after the user append) never fires, so each round adds two
entries. -/
lemma runRounds_even_growth (rounds : List (Message × Message)) :
    ∀ chat : List Message, Even chat.length →
      (runRounds chat rounds).length = chat.length + 2 * rounds.length := by
  induction rounds with
  | nil => intro chat _; simp [runRounds]
  | cons q qs ih =>
      intro chat hev
      obtain ⟨k, hk⟩ := hev
      have hne : (chat ++ [q.1]).length ≠ 4 := by
        simp only [List.length_append, List.length_singleton]
        omega
      have hstep : sendRound chat q = chat ++ [q.1] ++ [q.2] := by
        rw [show sendRound chat q = pruneAt4 (chat ++ [q.1]) ++ [q.2]
          from rfl, pruneAt4_of_ne hne]
      have hev2 : Even (chat ++ [q.1] ++ [q.2]).length := by
        refine ⟨k + 1, ?_⟩
        simp only [List.length_append, List.length_singleton, hk]
        omega
      have hrec := ih (chat ++ [q.1] ++ [q.2]) hev2
      simp only [runRounds, List.foldl_cons] at hrec ⊢
      rw [hstep, hrec]
      simp only [List.length_append, List.length_cons, List.length_nil]
      omega

/-- C8 amended: when a system instruction is set the session history
starts as `[system]`, and every run of successful `send_message` calls
keeps it at `[system]` or `[system, last user, last answer]` — length at
most 3, the system message never dropped, the turns correctly
alternating.  When no system instruction is set, the `len == 4` prune
check never fires (the length is odd whenever it is tested) and the
history grows without bound: exactly `2·n` after `n` rounds. -/
theorem c8_history_bound (sys : Message)
    (rounds : List (Message × Message))
    (hroles : ∀ p ∈ rounds, p.1.role = Role.user ∧
      p.2.role = Role.assistant) :
    (runRounds [sys] rounds).length ≤ 3
  ∧ (runRounds [sys] rounds).head? = some sys
  ∧ (runRounds [sys] rounds = [sys] ∨
     ∃ u a : Message, u.role = Role.user ∧ a.role = Role.assistant ∧
       runRounds [sys] rounds = [sys, u, a])
  ∧ (runRounds [] rounds).length = 2 * rounds.length := by
  have hshape : runRounds [sys] rounds = [sys] ∨
      ∃ p ∈ rounds, runRounds [sys] rounds = [sys, p.1, p.2] := by
    cases rounds with
    | nil => exact Or.inl rfl
    | cons q qs =>
        have hstep : runRounds [sys] (q :: qs) =
            runRounds [sys, q.1, q.2] qs := by
          simp [runRounds, sendRound_one]
        rcases runRounds_three_shape qs sys q.1 q.2 with ⟨heq, _⟩ |
          ⟨p, hp, heq⟩
        · exact Or.inr ⟨q, List.mem_cons_self q qs, by rw [hstep, heq]⟩
        · exact Or.inr ⟨p, List.mem_cons_of_mem q hp, by rw [hstep, heq]⟩
  refine ⟨?_, ?_, ?_, ?_⟩
  · rcases hshape with heq | ⟨p, _, heq⟩ <;> simp [heq]
  · rcases hshape with heq | ⟨p, _, heq⟩ <;> simp [heq]
  · rcases hshape with heq | ⟨p, hp, heq⟩
    · exact Or.inl heq
    · exact Or.inr ⟨p.1, p.2, (hroles p hp).1, (hroles p hp).2, heq⟩
  · simpa using runRounds_even_growth rounds [] ⟨0, rfl⟩

/-- C8 amended witness: the theorem applied to a concrete two-round
session under a system instruction. -/
theorem c8_history_bound_witness :
    (runRounds [sysMsg] [(userMsg, answerMsg), (userMsg, answerMsg)]).length
        ≤ 3
  ∧ (runRounds [sysMsg] [(userMsg, answerMsg),
        (userMsg, answerMsg)]).head? = some sysMsg := by
  have h := c8_history_bound sysMsg
    [(userMsg, answerMsg), (userMsg, answerMsg)]
    (by intro p hp; fin_cases hp <;> exact ⟨rfl, rfl⟩)
  exact ⟨h.1, h.2.1⟩

/-! ## Control-loop helper lemmas -/

lemma ask_unlocked_shape (env : LoopEnv) (N : ℕ) :
    (ask false env N).busy = false ∧ (ask false env N).finalLocked = false ∧
    (ask false env N).events.getLast? = some EventType.END_OF_SIMULATION := by
  refine ⟨rfl, rfl, ?_⟩
  show ((EventType.SIMULATION_STARTED :: (askBody env N).events) ++
    [EventType.END_OF_SIMULATION]).getLast? =
    some EventType.END_OF_SIMULATION
  rw [List.getLast?_concat]

lemma nonCompleting_isComplete_false {r : Result RobotAction}
    (h : nonCompletingResp r) : Result.isCompleteResp r = false := by
  obtain ⟨-, a, hv, hcmd, -⟩ := h
  simp only [Result.isCompleteResp, hv]
  rw [beq_eq_false_iff_ne.mpr hcmd]
  simp

lemma loopGuard_true_lt {N iters : ℕ} {r : Result RobotAction}
    (hg : loopGuard N iters r = true) : iters < N := by
  unfold loopGuard at hg
  simp only [Bool.and_eq_true, decide_eq_true_eq] at hg
  exact hg.1

lemma loopGuard_false_bound {N iters : ℕ} {r : Result RobotAction}
    (hg : loopGuard N iters r = false)
    (hc : Result.isCompleteResp r = false) : N ≤ iters := by
  unfold loopGuard at hg
  rw [hc] at hg
  simp at hg
  exact hg

lemma checkSafety_ne_none (a : RobotAction) (L : List ℚ) (h : L ≠ []) :
    ActionAdapter.checkSafety a L ≠ none := by
  unfold ActionAdapter.checkSafety
  by_cases hf : a.command = "FRONT"
  · rw [if_pos hf]
    cases L with
    | nil => exact absurd rfl h
    | cons x xs =>
        simp only [npMin]
        split <;> simp
  · rw [if_neg hf]
    simp

lemma execute_status_success {a : RobotAction} {o : ActuationOutcome}
    (h : a.command ∈ actionMapCommands) :
    (ActionAdapter.execute a o).1.status = ActionStatus.SUCCESS := by
  have hs := (actionMapLookup_isSome_iff a.command).mpr h
  rcases hl : actionMapLookup a.command with _ | call
  · rw [hl] at hs
    simp at hs
  · rw [execute_of_lookup_some (o := o) hl]

/-- Under a model whose responses always parse to non-`COMPLETE`
dispatch-table commands, a nonempty lidar feed and no timeouts, the
`while` loop runs until `iterations = maxIterations` and raises
nothing.  (Invalid responses are excluded: their re-prompt raises
`TypeError` and aborts the session.) -/
lemma askLoopAux_runs_to_max
    (iterAt : ℕ → Except String (Result RobotAction))
    (lidarAt : ℕ → List ℚ) (timesOutAt : ℕ → Bool)
    (actuationAt : ℕ → ActuationOutcome) (N : ℕ)
    (hresp : ∀ k, ∃ r, iterAt k = Except.ok r ∧ nonCompletingResp r)
    (hlidar : ∀ i, lidarAt i ≠ [])
    (htime : ∀ i, timesOutAt i = false) :
    ∀ fuel iters callIdx r, nonCompletingResp r → N ≤ iters + fuel →
      iters ≤ N →
      (askLoopAux iterAt lidarAt timesOutAt actuationAt N fuel iters
        callIdx r).iterations = N ∧
      (askLoopAux iterAt lidarAt timesOutAt actuationAt N fuel iters
        callIdx r).exn = none := by
  intro fuel
  induction fuel with
  | zero =>
      intro iters callIdx r _ hle hge
      constructor
      · show iters = N
        omega
      · rfl
  | succ fuel ih =>
      intro iters callIdx r hr hle hge
      obtain ⟨hok, a, hv, hcmd, hmem⟩ := hr
      by_cases hg : loopGuard N iters r = true
      · have hlt : iters < N := loopGuard_true_lt hg
        obtain ⟨r2, h2, hr2⟩ := hresp callIdx
        rcases hb : ActionAdapter.checkSafety a
            (lidarAt (iters + 1)) with _ | b
        · exact absurd hb
            (checkSafety_ne_none a _ (hlidar (iters + 1)))
        cases b with
        | false =>
            simp only [askLoopAux, hg, if_true, hok, hv, hb, h2]
            exact ih (iters + 1) (callIdx + 1) r2 hr2 (by omega)
              (by omega)
        | true =>
            simp only [askLoopAux, hg, if_true, hok, hv, hb,
              htime (iters + 1), Bool.false_eq_true, if_false,
              execute_status_success (o := actuationAt (iters + 1))
                hmem, if_true, h2]
            exact ih (iters + 1) (callIdx + 1) r2 hr2 (by omega)
              (by omega)
      · have hgf : loopGuard N iters r = false := by
          revert hg
          cases loopGuard N iters r <;> simp
        have hiters : N ≤ iters :=
          loopGuard_false_bound hgf
            (nonCompleting_isComplete_false ⟨hok, a, hv, hcmd, hmem⟩)
        simp only [askLoopAux, hgf, Bool.false_eq_true, if_false]
        constructor
        · show iters = N
          omega
        · trivial

/-! ## C1: session mutual exclusion and unconditional release -/

/-- C1: an `ask` that finds the session lock held returns busy at once —
no events, no state change — while an `ask` that acquires the lock ends,
for every environment behaviour (including mid-loop exceptions,
timeouts and action failures), with the lock released and
`END_OF_SIMULATION` as its final event; a subsequent `ask` therefore
acquires the lock. -/
theorem c1_session_lock (env env2 : LoopEnv) (N N2 : ℕ) :
    ask true env N = { busy := true, events := [], finalLocked := true }
  ∧ (ask false env N).busy = false
  ∧ (ask false env N).finalLocked = false
  ∧ (ask false env N).events.getLast? = some EventType.END_OF_SIMULATION
  ∧ (ask (ask false env N).finalLocked env2 N2).busy = false := by
  obtain ⟨h1, h2, h3⟩ := ask_unlocked_shape env N
  refine ⟨rfl, h1, h2, h3, ?_⟩
  rw [h2]
  exact (ask_unlocked_shape env2 N2).1

/-! ## C6: there is no abort flag -/

/-- C6 counterexample: with an external abort signal raised before the
very first iteration, a session whose model keeps proposing safe
`ROTATE_LEFT` actions still runs all `maxIterations = 3` iterations —
the `while` condition never consults any abort flag, so the loop does
not exit before the next iteration as the claim requires. -/
theorem c6_counterexample :
    envAbortSignalled.abortSignalAt 0 = true
  ∧ (askBody envAbortSignalled 3).iterations = 3
  ∧ envAbortSignalled.abortSignalAt 3 = true := by
  exact ⟨rfl, rfl, rfl⟩

/-- C6 amended: `LLMRobotController.ask` has no abort flag — its loop
condition reads only the iteration counter and the last response, so the
whole session outcome is identical for any two abort-signal histories;
the lock is still always released with `END_OF_SIMULATION` emitted
last.  (`SIMULATION_ABORTED` is emitted only for invalid responses,
reached iteration caps, action failures/timeouts or exceptions — never
in reaction to an external abort, and `events.py` defines no `ABORT`
member at all.) -/
theorem c6_no_abort_flag (f : ℕ → Except String (Result RobotAction))
    (l : ℕ → List ℚ) (t : ℕ → Bool) (act : ℕ → ActuationOutcome)
    (g g2 : ℕ → Bool) (N : ℕ) :
    askBody { iterateAt := f, lidarAt := l, timesOutAt := t,
              actuationAt := act, abortSignalAt := g } N =
      askBody { iterateAt := f, lidarAt := l, timesOutAt := t,
                actuationAt := act, abortSignalAt := g2 } N
  ∧ (ask false { iterateAt := f, lidarAt := l, timesOutAt := t,
                 actuationAt := act, abortSignalAt := g } N).finalLocked =
      false
  ∧ (ask false { iterateAt := f, lidarAt := l, timesOutAt := t,
                 actuationAt := act, abortSignalAt := g } N).events.getLast?
      = some EventType.END_OF_SIMULATION := by
  obtain ⟨-, h2, h3⟩ := ask_unlocked_shape
    { iterateAt := f, lidarAt := l, timesOutAt := t, actuationAt := act,
      abortSignalAt := g } N
  exact ⟨rfl, h2, h3⟩

/-! ## C5: the iteration cap -/

/-- C5 counterexample: a model that never returns `COMPLETE` but always
proposes the unknown command `JUMP` makes `ask(prompt, 5)` terminate
after a single round-trip (the unknown command fails execution and
breaks the loop) with no `LLM_MAX_ITERATIONS_REACHED` emitted; and a
model that only produces invalid JSON likewise ends after a single
iteration, because the invalid-response re-prompt calls `iterate` with
three arguments against its two-parameter signature, raising
`TypeError` and aborting the session — so invalid re-prompts do not
keep consuming the iteration budget as the claim states. -/
theorem c5_counterexample :
    (askBody envUnknownCommand 5).iterations = 1
  ∧ EventType.LLM_MAX_ITERATIONS_REACHED ∉
      (askBody envUnknownCommand 5).events
  ∧ (askBody envAllInvalid 5).iterations = 1
  ∧ EventType.LLM_MAX_ITERATIONS_REACHED ∉
      (askBody envAllInvalid 5).events
  ∧ EventType.SIMULATION_ABORTED ∈ (askBody envAllInvalid 5).events := by
  refine ⟨rfl, by decide, rfl, by decide, by decide⟩

/-- C5 amended: for every model whose responses always parse to
dispatch-table commands other than `COMPLETE` (an invalid response
instead aborts the session via the `TypeError` raised by the
three-argument re-prompt call), with nonempty lidar snapshots and no
execution timeouts, the loop body runs exactly `maxIterations` times —
unsafe-action re-prompts consuming the same budget as executed
actions — and `LLM_MAX_ITERATIONS_REACHED` is emitted. -/
theorem c5_iteration_cap (env : LoopEnv) (N : ℕ)
    (hresp : ∀ k, ∃ r, env.iterateAt k = Except.ok r ∧
      nonCompletingResp r)
    (hlidar : ∀ i, env.lidarAt i ≠ [])
    (htime : ∀ i, env.timesOutAt i = false) :
    (askBody env N).iterations = N
  ∧ EventType.LLM_MAX_ITERATIONS_REACHED ∈ (askBody env N).events := by
  obtain ⟨r0, h0, hr0⟩ := hresp 0
  obtain ⟨hIter, hExn⟩ := askLoopAux_runs_to_max env.iterateAt env.lidarAt
    env.timesOutAt env.actuationAt N hresp hlidar htime (N + 1) 0 1 r0 hr0
    (by omega) (by omega)
  constructor
  · simp only [askBody, h0, hIter]
  · simp only [askBody, h0, hExn, hIter, le_refl, if_true]
    simp

/-- C5 amended witness: a model that always proposes an unsafe `FRONT`
action is re-prompted through the dangerous-action branch every
iteration and hits the cap after exactly 2 of 2 iterations. -/
theorem c5_iteration_cap_witness :
    (askBody envUnsafeFront 2).iterations = 2
  ∧ EventType.LLM_MAX_ITERATIONS_REACHED ∈
      (askBody envUnsafeFront 2).events := by
  exact c5_iteration_cap envUnsafeFront 2
    (fun k => ⟨Result.success { command := "FRONT", parameter := 5 },
      rfl, rfl, { command := "FRONT", parameter := 5 }, rfl, by decide,
      by decide⟩)
    (fun i => List.cons_ne_nil 1 [])
    (fun i => rfl)

end RobotCtl
